import Mathlib

/-!
# Verification of the changelog-testing version/changelog core

A shallow embedding of the repository's version-increment and
changelog-entry-generation logic, together with proofs about it.

Two embodiments of the version-increment logic exist in the repository:

* `upgradePackageJSONVersion` / `scriptMain` — the version-bump script
  (`src/unnamed/part_000`).  The script splits the version on `'.'`,
  mutates the relevant components with JavaScript number arithmetic
  (`parseInt`, `+ 1`, `< 100`) and joins the parts back; it performs no
  format validation, and its patch rule clamps any incremented patch
  below 100 up to 100.
* `calculateNextVersion` — the test suite's
  `VersionManager.calculateNextVersion` (`src/test/workflow.test.js`).
  It validates against the regex `^(\d+)\.(\d+)\.(\d+)$`, converts the
  three captures with `Number`, increments, and re-renders the triple
  with a template literal; its patch rule jumps to 100 only from 0.

The changelog-entry formatter `generateChangelogEntry` mirrors
`ChangelogManager.generateChangelogEntry` from the test suite.

JavaScript strings are modelled as Lean `String` (lists of characters);
JavaScript numbers arising from `parseInt` are modelled by `JSNum`
(an integer or `NaN`); `Number` applied to a regex capture of `\d+` is
decimal conversion of a digit string, modelled by `decToNat`.
-/

namespace Changelog

/-! ## Characters and decimal digit strings -/

/-- Numeric value of a decimal digit character. -/
def digitVal (c : Char) : Nat := c.toNat - 48

/-- A nonempty all-digit character list: the shape a `\d+` capture group has. -/
def isDigits (l : List Char) : Bool := !l.isEmpty && l.all Char.isDigit

/-- Decimal value of a digit string, as computed by JavaScript `Number`
on a string of digits (also the value `parseInt` returns on it). -/
def decToNat (l : List Char) : Nat := l.foldl (fun a c => 10 * a + digitVal c) 0

/-- Fuel-driven decimal rendering; the fuel only makes the recursion
structural, and `natToDigitsAux_congr` shows any sufficient fuel gives
the same digits. -/
def natToDigitsAux : Nat → Nat → List Char
  | 0, n => [Nat.digitChar n]
  | fuel + 1, n =>
    if n < 10 then [Nat.digitChar n]
    else natToDigitsAux fuel (n / 10) ++ [Nat.digitChar (n % 10)]

/-- Decimal rendering of a natural number, as produced by a JavaScript
template literal interpolating a non-negative number: most significant
digit first, no leading zeros, no sign. -/
def natToDigits (n : Nat) : List Char := natToDigitsAux n n

theorem natToDigitsAux_congr :
    ∀ fuel fuel' n : Nat, n ≤ fuel → n ≤ fuel' →
      natToDigitsAux fuel n = natToDigitsAux fuel' n := by
  intro fuel
  induction fuel with
  | zero =>
    intro fuel' n h h'
    have hn : n = 0 := Nat.le_zero.mp h
    subst hn
    cases fuel' with
    | zero => rfl
    | succ k => simp [natToDigitsAux]
  | succ f ih =>
    intro fuel' n h h'
    cases fuel' with
    | zero =>
      have hn : n = 0 := Nat.le_zero.mp h'
      subst hn
      simp [natToDigitsAux]
    | succ f' =>
      rw [natToDigitsAux, natToDigitsAux]
      split
      · rfl
      · rw [ih f' (n / 10) (by omega) (by omega)]

/-- The defining recurrence of `natToDigits`, free of fuel. -/
theorem natToDigits_eq (n : Nat) :
    natToDigits n =
      if n < 10 then [Nat.digitChar n]
      else natToDigits (n / 10) ++ [Nat.digitChar (n % 10)] := by
  rw [natToDigits]
  cases n with
  | zero => simp [natToDigitsAux]
  | succ m =>
    rw [natToDigitsAux]
    split
    · rfl
    · rw [natToDigits,
        natToDigitsAux_congr m ((m + 1) / 10) ((m + 1) / 10) (by omega) (by omega)]

/-- `String.prototype.split(sep)` for a single-character separator, on the
underlying character list.  `"".split(sep)` is `[""]`; separators at the
ends produce empty components, exactly as in JavaScript. -/
def splitOnChar (sep : Char) : List Char → List (List Char)
  | [] => [[]]
  | c :: rest =>
    if c = sep then [] :: splitOnChar sep rest
    else
      match splitOnChar sep rest with
      | [] => [[c]]
      | p :: ps => (c :: p) :: ps

/-- `Array.prototype.join(sep)` for a single-character separator. -/
def joinWithChar (sep : Char) : List (List Char) → List Char
  | [] => []
  | [p] => p
  | p :: ps => p ++ sep :: joinWithChar sep ps

/-- Substring containment test (used only to state counterexamples about
what a produced block does and does not contain). -/
def containsSub (needle : List Char) : List Char → Bool
  | [] => needle.isPrefixOf []
  | c :: rest => needle.isPrefixOf (c :: rest) || containsSub needle rest

/-- Substring containment on strings. -/
def containsStr (needle hay : String) : Bool := containsSub needle.data hay.data

/-! ## Basic lemmas about the digit machinery -/

theorem digitChar_isDigit (d : Nat) (h : d < 10) : (Nat.digitChar d).isDigit = true := by
  interval_cases d <;> decide

theorem digitVal_digitChar (d : Nat) (h : d < 10) : digitVal (Nat.digitChar d) = d := by
  interval_cases d <;> decide

theorem natToDigits_ne_nil (n : Nat) : natToDigits n ≠ [] := by
  rw [natToDigits_eq]
  split
  · simp
  · simp

theorem isDigit_of_mem_natToDigits (n : Nat) (c : Char) (h : c ∈ natToDigits n) :
    c.isDigit = true := by
  induction n using Nat.strong_induction_on with
  | _ n ih =>
    rw [natToDigits_eq] at h
    split at h
    · rw [List.mem_singleton] at h
      subst h
      exact digitChar_isDigit n (by omega)
    · rw [List.mem_append, List.mem_singleton] at h
      rcases h with h | h
      · exact ih (n / 10) (Nat.div_lt_self (by omega) (by omega)) h
      · subst h
        exact digitChar_isDigit _ (Nat.mod_lt _ (by omega))

theorem decToNat_append_digit (l : List Char) (c : Char) :
    decToNat (l ++ [c]) = 10 * decToNat l + digitVal c := by
  simp [decToNat, List.foldl_append]

theorem decToNat_natToDigits (n : Nat) : decToNat (natToDigits n) = n := by
  induction n using Nat.strong_induction_on with
  | _ n ih =>
    rw [natToDigits_eq]
    split
    · simp [decToNat, digitVal_digitChar n (by omega)]
    · rw [decToNat_append_digit, ih (n / 10) (Nat.div_lt_self (by omega) (by omega)),
        digitVal_digitChar _ (Nat.mod_lt _ (by omega))]
      omega

theorem isDigits_natToDigits (n : Nat) : isDigits (natToDigits n) = true := by
  have h1 := natToDigits_ne_nil n
  rw [isDigits]
  simp only [Bool.and_eq_true, List.all_eq_true]
  constructor
  · simpa [List.isEmpty_iff] using h1
  · exact fun c hc => isDigit_of_mem_natToDigits n c hc

theorem not_mem_natToDigits_of_not_digit (n : Nat) (c : Char) (hc : c.isDigit = false) :
    c ∉ natToDigits n := by
  intro h
  rw [isDigit_of_mem_natToDigits n c h] at hc
  cases hc

/-! ## Lemmas about split and join -/

theorem splitOnChar_ne_nil (sep : Char) (l : List Char) : splitOnChar sep l ≠ [] := by
  cases l with
  | nil => simp [splitOnChar]
  | cons c rest =>
    rw [splitOnChar]
    split
    · simp
    · cases h : splitOnChar sep rest <;> simp

theorem splitOnChar_no_sep (sep : Char) (l : List Char) (h : sep ∉ l) :
    splitOnChar sep l = [l] := by
  induction l with
  | nil => rfl
  | cons c rest ih =>
    rw [splitOnChar]
    have hc : ¬ c = sep := by
      rintro rfl
      exact h (List.mem_cons_self _ _)
    rw [if_neg hc, ih (fun hm => h (List.mem_cons_of_mem _ hm))]

theorem splitOnChar_append_sep (sep : Char) (a l : List Char) (h : sep ∉ a) :
    splitOnChar sep (a ++ sep :: l) = a :: splitOnChar sep l := by
  induction a with
  | nil =>
    simp only [List.nil_append]
    rw [splitOnChar, if_pos rfl]
  | cons c rest ih =>
    rw [List.cons_append, splitOnChar]
    have hc : ¬ c = sep := by
      rintro rfl
      exact h (List.mem_cons_self _ _)
    rw [if_neg hc, ih (fun hm => h (List.mem_cons_of_mem _ hm))]

theorem joinWithChar_triple (sep : Char) (a b c : List Char) :
    joinWithChar sep [a, b, c] = a ++ sep :: (b ++ sep :: c) := by
  rfl

/-! ## JavaScript numbers, as produced by `parseInt(s, 10)`

The version-bump script manipulates the result of `parseInt` with `+ 1`
and `< 100` and re-renders it via `Array.prototype.join`.  `parseInt`
returns either an integer or `NaN`; `NaN + 1 = NaN`, `NaN < 100` is
false, and `String(NaN) = "NaN"`. -/

inductive JSNum where
  | nan : JSNum
  | int : Int → JSNum
deriving DecidableEq, Repr

/-- JavaScript `n + 1` on a `parseInt` result. -/
def JSNum.add1 : JSNum → JSNum
  | .nan => .nan
  | .int n => .int (n + 1)

/-- JavaScript `n < b` for a numeric literal bound: false on `NaN`. -/
def JSNum.ltNat (a : JSNum) (b : Nat) : Bool :=
  match a with
  | .nan => false
  | .int n => n < (b : Int)

/-- JavaScript `String(n)` on a `parseInt` result, as used by
`Array.prototype.join`. -/
def JSNum.render : JSNum → List Char
  | .nan => ['N', 'a', 'N']
  | .int n => if n < 0 then '-' :: natToDigits n.natAbs else natToDigits n.toNat

/-- The longest digit prefix of `s` read as a number, `NaN` if there is
none: the core of `parseInt(s, 10)` after sign handling. -/
def parseIntDigits (s : List Char) : JSNum :=
  let ds := s.takeWhile Char.isDigit
  if ds = [] then .nan else .int (decToNat ds)

/-- JavaScript `parseInt(s, 10)`: skip leading whitespace, read an
optional sign, then the longest digit prefix; `NaN` when no digit
follows. -/
def parseIntJS (l : List Char) : JSNum :=
  match l.dropWhile Char.isWhitespace with
  | [] => .nan
  | c :: rest =>
    if c = '-' then
      match parseIntDigits rest with
      | .nan => .nan
      | .int n => .int (-n)
    else if c = '+' then parseIntDigits rest
    else parseIntDigits (c :: rest)

/-- `parseInt(x, 10)` where `x` may be an absent array element
(`undefined`): `parseInt(undefined, 10)` is `NaN`. -/
def parseIntAt : Option (List Char) → JSNum
  | none => .nan
  | some s => parseIntJS s

/-- JavaScript array element assignment `a[i] = v`.  Assigning past the
end extends the array; the holes so created render as empty strings in
`join`, which is how they are modelled here. -/
def jsArraySet (parts : List (List Char)) (i : Nat) (v : List Char) : List (List Char) :=
  (parts ++ List.replicate (i + 1 - parts.length) []).set i v

/-! ## The version-bump script (`src/unnamed/part_000`) -/

/-- The body of `upgradePackageJSONVersion` from the version-bump
script, applied to the version string read from `package.json`:

* split the version on `'.'` (no format validation of any kind);
* `patch`: `versionParts[2] = parseInt(versionParts[2], 10) + 1`, then
  if the result is `< 100`, set it to `100`;
* `minor`: increment `versionParts[1]`, set `versionParts[2] = 0`;
* `major`: increment `versionParts[0]`, zero the other two;
* join the parts back with `'.'`.

The script's inner `default` branch is unreachable: the top level
(`scriptMain`) has already rejected every other bump type. -/
def upgradePackageJSONVersion (versionBumpType : String) (version : String) : String :=
  let versionParts := splitOnChar '.' version.data
  let parts :=
    if versionBumpType = "patch" then
      let n := (parseIntAt versionParts[2]?).add1
      let n := if n.ltNat 100 then JSNum.int 100 else n
      jsArraySet versionParts 2 n.render
    else if versionBumpType = "minor" then
      let n := (parseIntAt versionParts[1]?).add1
      jsArraySet (jsArraySet versionParts 1 n.render) 2 (JSNum.int 0).render
    else
      let n := (parseIntAt versionParts[0]?).add1
      jsArraySet (jsArraySet (jsArraySet versionParts 0 n.render) 1 (JSNum.int 0).render)
        2 (JSNum.int 0).render
  ⟨joinWithChar '.' parts⟩

/-- The whole script: `versionBumpType` is `process.argv[2]`, defaulting
to `patch` when the argument is absent or empty (both are falsy); it is
rejected with an error and a non-zero exit when it is not one of the
three recognized values, otherwise `upgradePackageJSONVersion` runs. -/
def scriptMain (argv2 : Option String) (version : String) : Except String String :=
  let versionBumpType :=
    match argv2 with
    | none => "patch"
    | some s => if s = "" then "patch" else s
  if versionBumpType ∈ ["major", "minor", "patch"] then
    Except.ok (upgradePackageJSONVersion versionBumpType version)
  else
    Except.error "Invalid version bump type. Use major, minor, or patch."

/-! ## The test suite's `VersionManager.calculateNextVersion` -/

/-- The match of `^(\d+)\.(\d+)\.(\d+)$` against a string: exactly three
dot-separated components, each a nonempty run of decimal digits; the
three capture groups on success. -/
def matchVersionRegex (s : List Char) : Option (List Char × List Char × List Char) :=
  match splitOnChar '.' s with
  | [a, b, c] => if isDigits a && isDigits b && isDigits c then some (a, b, c) else none
  | _ => none

/-- The template literal rendering a version triple back to a string. -/
def renderVersion (major minor patch : Nat) : String :=
  ⟨natToDigits major ++ '.' :: (natToDigits minor ++ '.' :: natToDigits patch)⟩

/-- `VersionManager.calculateNextVersion` from the test suite:
validate against the version regex (`Invalid version format: <input>`
on failure), convert the captures with `Number`, then switch on the
increment kind — `major` and `minor` as usual, and `patch` together
with `default` (any other selector falls through to the patch rule):
a `0` patch becomes `100`, any other patch is incremented by one. -/
def calculateNextVersion (currentVersion : String) (increment : String) : Except String String :=
  match matchVersionRegex currentVersion.data with
  | none => Except.error ("Invalid version format: " ++ currentVersion)
  | some (a, b, c) =>
    let major := decToNat a
    let minor := decToNat b
    let patch := decToNat c
    if increment = "major" then Except.ok (renderVersion (major + 1) 0 0)
    else if increment = "minor" then Except.ok (renderVersion major (minor + 1) 0)
    else if patch = 0 then Except.ok (renderVersion major minor 100)
    else Except.ok (renderVersion major minor (patch + 1))

/-- The parsed value of a version string under the regex, as a numeric
triple: `some` exactly when the regex matches. -/
def parseVersion (s : String) : Option (Nat × Nat × Nat) :=
  match matchVersionRegex s.data with
  | none => none
  | some (a, b, c) => some (decToNat a, decToNat b, decToNat c)

/-- The triple `calculateNextVersion` renders for a parsed triple and an
increment selector (any selector other than `major` and `minor` takes
the patch branch, mirroring the `switch` fall-through). -/
def nextTriple (x y z : Nat) (increment : String) : Nat × Nat × Nat :=
  if increment = "major" then (x + 1, 0, 0)
  else if increment = "minor" then (x, y + 1, 0)
  else if z = 0 then (x, y, 100) else (x, y, z + 1)

/-- Uncurried render of a version triple. -/
def renderT (t : Nat × Nat × Nat) : String := renderVersion t.1 t.2.1 t.2.2

/-! ## The test suite's `ChangelogManager.generateChangelogEntry` -/

/-- Commit information handed to the changelog formatter. -/
structure CommitData where
  sha : String
  author : String
  message : String
deriving DecidableEq, Repr

/-- `ChangelogManager.generateChangelogEntry` from the test suite.  The
ambient clock is passed in as `nowISO`, the value of
`new Date().toISOString()` (shaped `YYYY-MM-DDTHH:mm:ss.sssZ`); the code
keeps only the part before `'T'`, and truncates the commit sha to its
first 7 characters for the link label while the URL keeps the full sha. -/
def generateChangelogEntry (version : String) (commitData : CommitData)
    (nowISO : String) : String :=
  let currentDate : String := ⟨(splitOnChar 'T' nowISO.data).headD []⟩
  let shortSha : String := ⟨commitData.sha.data.take 7⟩
  "## [" ++ version ++ "] - " ++ currentDate ++ "\n\n**Author:** " ++ commitData.author
    ++ "\n**Commit:** [" ++ shortSha ++ "](https://github.com/owner/repo/commit/"
    ++ commitData.sha ++ ")\n**Message:** " ++ commitData.message ++ "\n\n"

end Changelog




namespace Changelog

/-! ## Characterization of parsing and rendering -/

theorem dot_not_digit : ('.' : Char).isDigit = false := by decide

theorem dot_not_mem_natToDigits (n : Nat) : '.' ∉ natToDigits n :=
  not_mem_natToDigits_of_not_digit n '.' dot_not_digit

/-- `renderVersion` and its underlying character list. -/
theorem renderVersion_data (x y z : Nat) :
    (renderVersion x y z).data
      = natToDigits x ++ '.' :: (natToDigits y ++ '.' :: natToDigits z) := rfl

/-- Splitting a rendered version on dots recovers the three digit runs. -/
theorem splitOnChar_renderVersion (x y z : Nat) :
    splitOnChar '.' (renderVersion x y z).data
      = [natToDigits x, natToDigits y, natToDigits z] := by
  rw [renderVersion_data,
    splitOnChar_append_sep '.' _ _ (dot_not_mem_natToDigits x),
    splitOnChar_append_sep '.' _ _ (dot_not_mem_natToDigits y),
    splitOnChar_no_sep '.' _ (dot_not_mem_natToDigits z)]

/-- The version regex matches a rendered version, capturing its digit runs. -/
theorem matchVersionRegex_renderVersion (x y z : Nat) :
    matchVersionRegex (renderVersion x y z).data
      = some (natToDigits x, natToDigits y, natToDigits z) := by
  rw [matchVersionRegex, splitOnChar_renderVersion]
  simp [isDigits_natToDigits]

/-- Round trip: parsing a rendered version yields the original triple. -/
theorem parseVersion_renderVersion (x y z : Nat) :
    parseVersion (renderVersion x y z) = some (x, y, z) := by
  rw [parseVersion, matchVersionRegex_renderVersion]
  simp [decToNat_natToDigits]

/-- Rendering is injective: distinct triples give distinct strings. -/
theorem renderVersion_injective {x y z x' y' z' : Nat}
    (h : renderVersion x y z = renderVersion x' y' z') :
    x = x' ∧ y = y' ∧ z = z' := by
  have h1 := parseVersion_renderVersion x y z
  rw [h, parseVersion_renderVersion] at h1
  simp only [Option.some.injEq, Prod.mk.injEq] at h1
  exact ⟨h1.1.symm, h1.2.1.symm, h1.2.2.symm⟩

/-- `calculateNextVersion` on a string the regex accepts: the rendered
`nextTriple` of the parsed triple, for every increment selector. -/
theorem calculateNextVersion_parsed (s : String) (x y z : Nat) (k : String)
    (h : parseVersion s = some (x, y, z)) :
    calculateNextVersion s k = Except.ok (renderT (nextTriple x y z k)) := by
  rw [parseVersion] at h
  rw [calculateNextVersion]
  cases hm : matchVersionRegex s.data with
  | none => rw [hm] at h; cases h
  | some abc =>
    obtain ⟨a, b, c⟩ := abc
    rw [hm] at h
    simp only [Option.some.injEq, Prod.mk.injEq] at h
    obtain ⟨hx, hy, hz⟩ := h
    simp only [renderT, nextTriple, hx, hy, hz]
    split
    · rfl
    · split
      · rfl
      · split
        · simp_all
        · simp_all

/-- `calculateNextVersion` on a string the regex rejects: the
`Invalid version format` error carrying the offending string. -/
theorem calculateNextVersion_invalid (s : String) (k : String)
    (h : parseVersion s = none) :
    calculateNextVersion s k = Except.error ("Invalid version format: " ++ s) := by
  rw [parseVersion] at h
  rw [calculateNextVersion]
  cases hm : matchVersionRegex s.data with
  | none => rfl
  | some abc =>
    obtain ⟨a, b, c⟩ := abc
    rw [hm] at h
    cases h

end Changelog

namespace Changelog

/-! ## `parseInt` on digit strings -/

theorem isWhitespace_false_of_isDigit (c : Char) (h : c.isDigit = true) :
    c.isWhitespace = false := by
  by_contra hw
  rw [Bool.not_eq_false, Char.isWhitespace] at hw
  simp only [Bool.or_eq_true, decide_eq_true_eq] at hw
  rcases hw with ((rfl | rfl) | rfl) | rfl <;> exact absurd h (by decide)

theorem ne_dash_of_isDigit (c : Char) (h : c.isDigit = true) : ¬ c = '-' := by
  rintro rfl
  exact absurd h (by decide)

theorem ne_plus_of_isDigit (c : Char) (h : c.isDigit = true) : ¬ c = '+' := by
  rintro rfl
  exact absurd h (by decide)

theorem takeWhile_eq_self_of_all {α : Type} (p : α → Bool) (l : List α)
    (h : ∀ c ∈ l, p c = true) : l.takeWhile p = l := by
  induction l with
  | nil => rfl
  | cons c rest ih =>
    rw [List.takeWhile_cons, if_pos (h c (List.mem_cons_self _ _)),
      ih (fun d hd => h d (List.mem_cons_of_mem _ hd))]

theorem dropWhile_cons_of_neg {α : Type} (p : α → Bool) (c : α) (l : List α)
    (h : p c = false) : (c :: l).dropWhile p = c :: l := by
  rw [List.dropWhile_cons, if_neg (by simp [h])]

/-- `parseInt` on a nonempty all-digit string is its decimal value. -/
theorem parseIntJS_digits (l : List Char) (h1 : l ≠ [])
    (h2 : ∀ c ∈ l, c.isDigit = true) :
    parseIntJS l = JSNum.int (decToNat l) := by
  cases l with
  | nil => exact absurd rfl h1
  | cons c rest =>
    have hc := h2 c (List.mem_cons_self _ _)
    rw [parseIntJS]
    rw [dropWhile_cons_of_neg _ c rest (isWhitespace_false_of_isDigit c hc)]
    simp only [if_neg (ne_dash_of_isDigit c hc), if_neg (ne_plus_of_isDigit c hc)]
    rw [parseIntDigits]
    simp only [takeWhile_eq_self_of_all Char.isDigit (c :: rest) h2]
    simp

/-- `parseInt` on the decimal rendering of `n` gives back `n`. -/
theorem parseIntJS_natToDigits (n : Nat) :
    parseIntJS (natToDigits n) = JSNum.int (n : Int) := by
  rw [parseIntJS_digits (natToDigits n) (natToDigits_ne_nil n)
    (fun c hc => isDigit_of_mem_natToDigits n c hc), decToNat_natToDigits]

theorem JSNum.render_coe (n : Nat) :
    JSNum.render (JSNum.int (n : Int)) = natToDigits n := by
  rw [JSNum.render, if_neg (by omega)]
  congr 1

/-! ## The script on canonical version strings -/

theorem jsArraySet_zero (a b c v : List Char) :
    jsArraySet [a, b, c] 0 v = [v, b, c] := rfl

theorem jsArraySet_one (a b c v : List Char) :
    jsArraySet [a, b, c] 1 v = [a, v, c] := rfl

theorem jsArraySet_two (a b c v : List Char) :
    jsArraySet [a, b, c] 2 v = [a, b, v] := rfl

/-- `ltNat` on an embedded natural compares the naturals. -/
theorem JSNum.ltNat_coe (n b : Nat) :
    (JSNum.int (n : Int)).ltNat b = decide (n < b) := by
  simp only [JSNum.ltNat, decide_eq_decide]
  omega

/-- The script's patch rule on a canonical version: increment, then clamp
anything below 100 up to 100. -/
theorem upgradePackageJSONVersion_patch (x y z : Nat) :
    upgradePackageJSONVersion "patch" (renderVersion x y z)
      = renderVersion x y (if z + 1 < 100 then 100 else z + 1) := by
  have h1 : (z : Int) + 1 = ((z + 1 : Nat) : Int) := by push_cast; ring
  have hpp := eq_true (rfl : ("patch" : String) = "patch")
  simp only [upgradePackageJSONVersion, splitOnChar_renderVersion, hpp, if_true,
    List.getElem?_cons_succ, List.getElem?_cons_zero, parseIntAt,
    parseIntJS_natToDigits, JSNum.add1, h1, JSNum.ltNat_coe,
    decide_eq_true_eq, jsArraySet_two, joinWithChar_triple]
  split
  · rfl
  · rw [JSNum.render_coe]
    rfl

/-- The script's minor rule on a canonical version. -/
theorem upgradePackageJSONVersion_minor (x y z : Nat) :
    upgradePackageJSONVersion "minor" (renderVersion x y z)
      = renderVersion x (y + 1) 0 := by
  have h1 : (y : Int) + 1 = ((y + 1 : Nat) : Int) := by push_cast; ring
  have hmp := eq_false (by decide : ¬ ("minor" : String) = "patch")
  have hmm := eq_true (rfl : ("minor" : String) = "minor")
  simp only [upgradePackageJSONVersion, splitOnChar_renderVersion, hmp, hmm,
    if_true, if_false, List.getElem?_cons_succ, List.getElem?_cons_zero,
    parseIntAt, parseIntJS_natToDigits, JSNum.add1, h1, JSNum.render_coe,
    jsArraySet_one, jsArraySet_two, joinWithChar_triple]
  rfl

/-- The script's major rule on a canonical version. -/
theorem upgradePackageJSONVersion_major (x y z : Nat) :
    upgradePackageJSONVersion "major" (renderVersion x y z)
      = renderVersion (x + 1) 0 0 := by
  have h1 : (x : Int) + 1 = ((x + 1 : Nat) : Int) := by push_cast; ring
  have hjp := eq_false (by decide : ¬ ("major" : String) = "patch")
  have hjm := eq_false (by decide : ¬ ("major" : String) = "minor")
  simp only [upgradePackageJSONVersion, splitOnChar_renderVersion, hjp, hjm,
    if_false, List.getElem?_cons_succ, List.getElem?_cons_zero,
    parseIntAt, parseIntJS_natToDigits, JSNum.add1, h1, JSNum.render_coe,
    jsArraySet_zero, jsArraySet_one, jsArraySet_two, joinWithChar_triple]
  rfl

end Changelog

namespace Changelog

/-! ## Further helper lemmas used by the claim theorems -/

theorem nextTriple_patch (x y z : Nat) :
    nextTriple x y z "patch" = (x, y, if z = 0 then 100 else z + 1) := by
  rw [nextTriple, if_neg (by decide), if_neg (by decide)]
  split <;> rfl

theorem nextTriple_minor (x y z : Nat) :
    nextTriple x y z "minor" = (x, y + 1, 0) := by
  rw [nextTriple, if_neg (by decide), if_pos rfl]

theorem nextTriple_major (x y z : Nat) :
    nextTriple x y z "major" = (x + 1, 0, 0) := by
  rw [nextTriple, if_pos rfl]

theorem renderT_injective {t t2 : Nat × Nat × Nat} (h : renderT t = renderT t2) :
    t = t2 := by
  obtain ⟨a, b, c⟩ := t
  obtain ⟨a2, b2, c2⟩ := t2
  obtain ⟨h1, h2, h3⟩ := renderVersion_injective h
  simp_all

/-- No increment selector fixes a triple: some component strictly grows
or is reset away from its old value. -/
theorem nextTriple_ne (x y z : Nat) (k : String) : nextTriple x y z k ≠ (x, y, z) := by
  intro h
  rw [nextTriple] at h
  split at h
  · have h1 : x + 1 = x := congrArg Prod.fst h
    omega
  · split at h
    · have h1 : y + 1 = y := congrArg (fun t => t.2.1) h
      omega
    · split at h
      · have h1 : (100 : Nat) = z := congrArg (fun t => t.2.2) h
        omega
      · have h1 : z + 1 = z := congrArg (fun t => t.2.2) h
        omega

end Changelog

namespace Changelog

/-! ## Claim C1 -/

/-- C1, counterexample.  The claim says every nonzero patch increments by
exactly 1 (including values below 100), but the version-bump script maps
`1.2.5` to `1.2.100`, not `1.2.6`: its clamp `if (versionParts[2] < 100)
versionParts[2] = 100` fires for every incremented patch below 100, not
only for the 0 → 100 jump. -/
theorem claim_C1_cex :
    upgradePackageJSONVersion "patch" "1.2.5" = "1.2.100"
    ∧ ("1.2.100" : String) ≠ "1.2.6" := by
  constructor
  · decide
  · decide

/-- C1, amended.  For every parsed version with nonzero patch,
`calculateNextVersion` increments the patch by exactly 1; the version-bump
script instead increments and then clamps anything below 100 up to 100,
so it adds exactly 1 only when the patch is at least 99. -/
theorem claim_C1 (s : String) (x y z : Nat) (hz : z ≠ 0)
    (hs : parseVersion s = some (x, y, z)) :
    calculateNextVersion s "patch" = Except.ok (renderVersion x y (z + 1))
    ∧ upgradePackageJSONVersion "patch" (renderVersion x y z)
        = renderVersion x y (if z + 1 < 100 then 100 else z + 1) := by
  constructor
  · rw [calculateNextVersion_parsed s x y z "patch" hs, nextTriple_patch,
      if_neg hz]
    rfl
  · exact upgradePackageJSONVersion_patch x y z

/-- C1, witness at `1.2.5`. -/
theorem claim_C1_witness :
    calculateNextVersion "1.2.5" "patch" = Except.ok (renderVersion 1 2 (5 + 1))
    ∧ upgradePackageJSONVersion "patch" (renderVersion 1 2 5)
        = renderVersion 1 2 (if 5 + 1 < 100 then 100 else 5 + 1) :=
  claim_C1 "1.2.5" 1 2 5 (by decide) (by decide)

/-! ## Claim C2 -/

/-- C2.  A version with patch 0 patch-increments to patch exactly 100 in
both embodiments, with major and minor unchanged. -/
theorem claim_C2 (x y : Nat) :
    calculateNextVersion (renderVersion x y 0) "patch"
      = Except.ok (renderVersion x y 100)
    ∧ upgradePackageJSONVersion "patch" (renderVersion x y 0)
        = renderVersion x y 100 := by
  constructor
  · rw [calculateNextVersion_parsed (renderVersion x y 0) x y 0 "patch"
      (parseVersion_renderVersion x y 0), nextTriple_patch, if_pos rfl]
    rfl
  · have h := upgradePackageJSONVersion_patch x y 0
    simpa using h

/-! ## Claim C3 -/

/-- C3, counterexample.  The two embodiments disagree on the well-formed
input `1.2.5` with the patch increment: the test suite's
`calculateNextVersion` yields `1.2.6` while the version-bump script
yields `1.2.100`. -/
theorem claim_C3_cex :
    calculateNextVersion "1.2.5" "patch" = Except.ok "1.2.6"
    ∧ upgradePackageJSONVersion "patch" "1.2.5" = "1.2.100"
    ∧ ("1.2.6" : String) ≠ "1.2.100" := by
  refine ⟨rfl, by decide, by decide⟩

/-- C3, amended.  On a canonical version string the two embodiments agree
for the major and minor increments, and for the patch increment they
agree exactly when the patch is 0 or at least 99; for patch values
1 … 98 the script jumps to 100 while the test suite increments by 1. -/
theorem claim_C3 (x y z : Nat) (k : String)
    (hk : k ∈ (["major", "minor", "patch"] : List String)) :
    (k = "major" ∨ k = "minor" →
      calculateNextVersion (renderVersion x y z) k
        = Except.ok (upgradePackageJSONVersion k (renderVersion x y z)))
    ∧ (k = "patch" →
      (calculateNextVersion (renderVersion x y z) k
          = Except.ok (upgradePackageJSONVersion k (renderVersion x y z))
        ↔ z = 0 ∨ 99 ≤ z)) := by
  constructor
  · rintro (rfl | rfl)
    · rw [calculateNextVersion_parsed (renderVersion x y z) x y z "major"
        (parseVersion_renderVersion x y z), nextTriple_major,
        upgradePackageJSONVersion_major]
      rfl
    · rw [calculateNextVersion_parsed (renderVersion x y z) x y z "minor"
        (parseVersion_renderVersion x y z), nextTriple_minor,
        upgradePackageJSONVersion_minor]
      rfl
  · rintro rfl
    rw [calculateNextVersion_parsed (renderVersion x y z) x y z "patch"
      (parseVersion_renderVersion x y z), nextTriple_patch,
      upgradePackageJSONVersion_patch]
    constructor
    · intro h
      have h3 : (if z = 0 then 100 else z + 1)
          = (if z + 1 < 100 then 100 else z + 1) :=
        (renderVersion_injective (Except.ok.inj h)).2.2
      by_cases hz : z = 0
      · exact Or.inl hz
      · right
        rw [if_neg hz] at h3
        by_cases hlt : z + 1 < 100
        · rw [if_pos hlt] at h3
          omega
        · omega
    · intro h
      have heq : (if z = 0 then 100 else z + 1)
          = (if z + 1 < 100 then 100 else z + 1) := by
        rcases h with rfl | h99
        · simp
        · rw [if_neg (by omega), if_neg (by omega)]
      rw [heq]
      rfl

/-- C3, witness at the agreeing input `1.2.0` with the patch increment. -/
theorem claim_C3_witness :
    calculateNextVersion (renderVersion 1 2 0) "patch"
      = Except.ok (upgradePackageJSONVersion "patch" (renderVersion 1 2 0)) :=
  ((claim_C3 1 2 0 "patch" (by decide)).2 rfl).mpr (Or.inl rfl)

/-! ## Claim C4 -/

/-- C4, counterexample.  The claim says every malformed version string
makes the version-increment operation fail with an invalid-format error,
but the version-bump script performs no format validation at all: on the
non-matching input `1.a.3` it succeeds and outputs `1.a.100`. -/
theorem claim_C4_cex :
    scriptMain (some "patch") "1.a.3" = Except.ok "1.a.100"
    ∧ (Except.ok "1.a.100" : Except String String)
        ≠ Except.error ("Invalid version format: 1.a.3") := by
  refine ⟨rfl, by simp⟩

/-- C4, amended.  The test suite's `calculateNextVersion` rejects every
string the version regex does not match with the error
`Invalid version format: <input>`, attempting no partial parse; the
version-bump script performs no format validation and instead produces a
mangled output (`1.a.3` → `1.a.100`, `1.2` → `1.2.NaN`). -/
theorem claim_C4 :
    (∀ s k : String, parseVersion s = none →
      calculateNextVersion s k = Except.error ("Invalid version format: " ++ s))
    ∧ scriptMain (some "patch") "1.a.3" = Except.ok "1.a.100"
    ∧ scriptMain (some "patch") "1.2" = Except.ok "1.2.NaN" :=
  ⟨fun s k h => calculateNextVersion_invalid s k h, rfl, rfl⟩

/-- C4, witness on the spec's four example rejects. -/
theorem claim_C4_witness :
    calculateNextVersion "1.2" "patch"
      = Except.error ("Invalid version format: " ++ "1.2")
    ∧ calculateNextVersion "1.2.3.4" "patch"
      = Except.error ("Invalid version format: " ++ "1.2.3.4")
    ∧ calculateNextVersion "1.a.3" "patch"
      = Except.error ("Invalid version format: " ++ "1.a.3")
    ∧ calculateNextVersion "v1.2.3" "patch"
      = Except.error ("Invalid version format: " ++ "v1.2.3") :=
  ⟨claim_C4.1 "1.2" "patch" (by decide), claim_C4.1 "1.2.3.4" "patch" (by decide),
    claim_C4.1 "1.a.3" "patch" (by decide), claim_C4.1 "v1.2.3" "patch" (by decide)⟩

end Changelog

namespace Changelog

/-! ## Claim C5 -/

/-- C5, counterexample.  The formatter's date is only the ISO date
portion `2024-07-04` — the block for a commit at 2024-07-04 14:30:25 UTC
contains neither the claimed date/time text `2024-07-04 14:30:25 UTC`
nor any ` UTC` suffix; everything else matches the claimed layout. -/
theorem claim_C5_cex :
    generateChangelogEntry "1.2.4"
        ⟨"abc123def456789", "Test Author", "feat: add new feature for testing"⟩
        "2024-07-04T14:30:25.000Z"
      = "## [1.2.4] - 2024-07-04\n\n**Author:** Test Author\n**Commit:** [abc123d](https://github.com/owner/repo/commit/abc123def456789)\n**Message:** feat: add new feature for testing\n\n"
    ∧ containsStr "2024-07-04 14:30:25 UTC"
        (generateChangelogEntry "1.2.4"
          ⟨"abc123def456789", "Test Author", "feat: add new feature for testing"⟩
          "2024-07-04T14:30:25.000Z") = false
    ∧ containsStr " UTC"
        (generateChangelogEntry "1.2.4"
          ⟨"abc123def456789", "Test Author", "feat: add new feature for testing"⟩
          "2024-07-04T14:30:25.000Z") = false := by
  refine ⟨rfl, by decide, by decide⟩

/-- C5, amended.  For every version, commit metadata and ISO timestamp
`date ++ "T" ++ time` (the date holding no `'T'`), the formatter returns
exactly the claimed block except that the date field is the bare ISO
date portion (`YYYY-MM-DD`, no time of day, no `UTC`): the header line,
a blank line, the author line, the commit line whose label is the first
7 characters of the sha and whose URL carries the full sha, the verbatim
message line, and a trailing blank line. -/
theorem claim_C5 (version author sha message date time : String)
    (hd : 'T' ∉ date.data) :
    generateChangelogEntry version ⟨sha, author, message⟩ (date ++ "T" ++ time)
      = "## [" ++ version ++ "] - " ++ date ++ "\n\n**Author:** " ++ author
        ++ "\n**Commit:** [" ++ (⟨sha.data.take 7⟩ : String)
        ++ "](https://github.com/owner/repo/commit/" ++ sha
        ++ ")\n**Message:** " ++ message ++ "\n\n" := by
  have hdata : (date ++ "T" ++ time).data = date.data ++ 'T' :: time.data := by
    simp [String.data_append]
  rw [generateChangelogEntry, hdata, splitOnChar_append_sep 'T' _ _ hd]
  rfl

/-- C5, witness at a concrete timestamp. -/
theorem claim_C5_witness :
    generateChangelogEntry "1.2.100" ⟨"abc123def456789", "Test Author", "fix: bug"⟩
        ("2024-07-04" ++ "T" ++ "14:30:25.000Z")
      = "## [" ++ "1.2.100" ++ "] - " ++ "2024-07-04" ++ "\n\n**Author:** "
        ++ "Test Author" ++ "\n**Commit:** ["
        ++ (⟨("abc123def456789" : String).data.take 7⟩ : String)
        ++ "](https://github.com/owner/repo/commit/" ++ "abc123def456789"
        ++ ")\n**Message:** " ++ "fix: bug" ++ "\n\n" :=
  claim_C5 "1.2.100" "Test Author" "abc123def456789" "fix: bug" "2024-07-04"
    "14:30:25.000Z" (by decide)

/-! ## Claim C6 -/

/-- C6, counterexample.  The claim says an unrecognized increment-kind
selector fails with an invalid-argument error and no default is
substituted, but `calculateNextVersion` with the unrecognized selector
`banana` succeeds and behaves exactly like `patch`: the `switch` joins
the `patch` case and the `default` case by fall-through. -/
theorem claim_C6_cex :
    calculateNextVersion "1.2.3" "banana" = Except.ok "1.2.4"
    ∧ calculateNextVersion "1.2.3" "banana" = calculateNextVersion "1.2.3" "patch" := by
  exact ⟨rfl, rfl⟩

/-- C6, amended.  For a selector outside `{major, minor, patch}`: the
version-bump script (for a nonempty selector; an absent or empty one
defaults to `patch`) exits with the invalid-bump-type error before
computing anything, while the test suite's `calculateNextVersion` raises
no error at all and silently substitutes the patch behaviour. -/
theorem claim_C6 (k v : String)
    (hk : k ∉ (["major", "minor", "patch"] : List String)) :
    (k ≠ "" → scriptMain (some k) v
        = Except.error "Invalid version bump type. Use major, minor, or patch.")
    ∧ calculateNextVersion v k = calculateNextVersion v "patch" := by
  have hks : ¬ k = "major" ∧ ¬ k = "minor" ∧ ¬ k = "patch" := by
    simpa [not_or] using hk
  constructor
  · intro hne
    simp only [scriptMain, if_neg hne]
    rw [if_neg hk]
  · cases hm : matchVersionRegex v.data with
    | none =>
      rw [calculateNextVersion, calculateNextVersion, hm]
    | some abc =>
      obtain ⟨a, b, c⟩ := abc
      rw [calculateNextVersion, calculateNextVersion, hm]
      simp only [if_neg hks.1, if_neg hks.2.1,
        if_neg (by decide : ¬ ("patch" : String) = "major"),
        if_neg (by decide : ¬ ("patch" : String) = "minor")]

/-- C6, witness at the selector `banana`. -/
theorem claim_C6_witness :
    scriptMain (some "banana") "1.2.3"
      = Except.error "Invalid version bump type. Use major, minor, or patch."
    ∧ calculateNextVersion "1.2.3" "banana" = calculateNextVersion "1.2.3" "patch" :=
  ⟨(claim_C6 "banana" "1.2.3" (by decide)).1 (by decide),
    (claim_C6 "banana" "1.2.3" (by decide)).2⟩

/-! ## Claim C7 -/

/-- C7.  Both core components are deterministic functions of their
declared inputs: equal version strings and increment selectors give
equal results from `calculateNextVersion`, and equal versions, commit
metadata and timestamps give equal blocks from
`generateChangelogEntry`.  In this embedding both are pure functions, so
neither has side effects or hidden state beyond the listed arguments
(the formatter's clock is the explicit `nowISO` argument). -/
theorem claim_C7 (v k v2 k2 : String) (c c2 : CommitData) (t t2 : String)
    (hv : v = v2) (hk : k = k2) (hc : c = c2) (ht : t = t2) :
    calculateNextVersion v k = calculateNextVersion v2 k2
    ∧ generateChangelogEntry v c t = generateChangelogEntry v2 c2 t2 := by
  subst hv
  subst hk
  subst hc
  subst ht
  exact ⟨rfl, rfl⟩

/-- C7, witness. -/
theorem claim_C7_witness :
    calculateNextVersion "1.2.3" "patch" = calculateNextVersion "1.2.3" "patch"
    ∧ generateChangelogEntry "1.2.3" ⟨"abc123def456789", "Test Author", "m"⟩
          "2024-07-04T14:30:25.000Z"
        = generateChangelogEntry "1.2.3" ⟨"abc123def456789", "Test Author", "m"⟩
          "2024-07-04T14:30:25.000Z" :=
  claim_C7 "1.2.3" "patch" "1.2.3" "patch"
    ⟨"abc123def456789", "Test Author", "m"⟩ ⟨"abc123def456789", "Test Author", "m"⟩
    "2024-07-04T14:30:25.000Z" "2024-07-04T14:30:25.000Z" rfl rfl rfl rfl

end Changelog

namespace Changelog

/-! ## Claim C8 -/

/-- C8.  Idempotence fails in both embodiments: for every parsed version
and every recognized increment kind, applying the increment twice gives
a different result than applying it once, because every kind strictly
advances at least one component. -/
theorem claim_C8 (s : String) (x y z : Nat) (k : String)
    (hs : parseVersion s = some (x, y, z))
    (hk : k ∈ (["major", "minor", "patch"] : List String)) :
    (calculateNextVersion s k).bind (fun w => calculateNextVersion w k)
        ≠ calculateNextVersion s k
    ∧ upgradePackageJSONVersion k (upgradePackageJSONVersion k (renderVersion x y z))
        ≠ upgradePackageJSONVersion k (renderVersion x y z) := by
  constructor
  · rw [calculateNextVersion_parsed s x y z k hs]
    rcases hn : nextTriple x y z k with ⟨a, b, c⟩
    simp only [Except.bind]
    have hrT : renderT (a, b, c) = renderVersion a b c := rfl
    rw [hrT, calculateNextVersion_parsed (renderVersion a b c) a b c k
      (parseVersion_renderVersion a b c)]
    intro h
    have h1 : renderT (nextTriple a b c k) = renderT (a, b, c) := Except.ok.inj h
    exact nextTriple_ne a b c k (renderT_injective h1)
  · have hk3 : k = "major" ∨ k = "minor" ∨ k = "patch" := by
      simpa using hk
    rcases hk3 with rfl | rfl | rfl
    · rw [upgradePackageJSONVersion_major x y z,
        upgradePackageJSONVersion_major (x + 1) 0 0]
      intro h
      have h1 := (renderVersion_injective h).1
      omega
    · rw [upgradePackageJSONVersion_minor x y z,
        upgradePackageJSONVersion_minor x (y + 1) 0]
      intro h
      have h1 := (renderVersion_injective h).2.1
      omega
    · rw [upgradePackageJSONVersion_patch x y z]
      intro h
      set w := if z + 1 < 100 then 100 else z + 1 with hw
      have hw100 : 100 ≤ w := by
        rw [hw]
        split <;> omega
      rw [upgradePackageJSONVersion_patch x y w] at h
      have h3 : (if w + 1 < 100 then 100 else w + 1) = w :=
        (renderVersion_injective h).2.2
      rw [if_neg (by omega)] at h3
      omega

/-- C8, witness at `1.2.3` with the patch increment. -/
theorem claim_C8_witness :
    (calculateNextVersion "1.2.3" "patch").bind
        (fun w => calculateNextVersion w "patch")
      ≠ calculateNextVersion "1.2.3" "patch"
    ∧ upgradePackageJSONVersion "patch"
          (upgradePackageJSONVersion "patch" (renderVersion 1 2 3))
        ≠ upgradePackageJSONVersion "patch" (renderVersion 1 2 3) :=
  claim_C8 "1.2.3" 1 2 3 "patch" (by decide) (by decide)

/-! ## Claim C9 -/

/-- C9.  The version format is closed under `calculateNextVersion`: for
every input the regex accepts and every increment selector, the returned
string again matches `^(\d+)\.(\d+)\.(\d+)$` — it parses back to exactly
the incremented triple — so increments chain without ever hitting the
invalid-format error. -/
theorem claim_C9 (s : String) (x y z : Nat) (k : String)
    (hs : parseVersion s = some (x, y, z)) :
    ∃ w : String, calculateNextVersion s k = Except.ok w
      ∧ parseVersion w = some (nextTriple x y z k) := by
  refine ⟨renderT (nextTriple x y z k),
    calculateNextVersion_parsed s x y z k hs, ?_⟩
  rcases hn : nextTriple x y z k with ⟨a, b, c⟩
  exact parseVersion_renderVersion a b c

/-- C9, witness at `1.2.3` with the minor increment. -/
theorem claim_C9_witness :
    ∃ w : String, calculateNextVersion "1.2.3" "minor" = Except.ok w
      ∧ parseVersion w = some (nextTriple 1 2 3 "minor") :=
  claim_C9 "1.2.3" 1 2 3 "minor" (by decide)

/-! ## Claim C10 -/

/-- C10.  Leading zeros are accepted and normalized: every string the
regex accepts — the pattern places no restriction on leading zeros —
patch-increments successfully to the canonical, leading-zero-free
rendering of the numerically parsed triple. -/
theorem claim_C10 (s : String) (x y z : Nat)
    (hs : parseVersion s = some (x, y, z)) :
    calculateNextVersion s "patch"
      = Except.ok (renderVersion x y (if z = 0 then 100 else z + 1)) := by
  rw [calculateNextVersion_parsed s x y z "patch" hs, nextTriple_patch]
  rfl

/-- C10, witness: `01.02.000` parses (to `(1, 2, 0)`) and
patch-increments to the normalized `1.2.100`. -/
theorem claim_C10_witness :
    calculateNextVersion "01.02.000" "patch"
      = Except.ok (renderVersion 1 2 (if 0 = 0 then 100 else 0 + 1))
    ∧ renderVersion 1 2 (if 0 = 0 then 100 else 0 + 1) = "1.2.100" :=
  ⟨claim_C10 "01.02.000" 1 2 0 (by decide), by decide⟩

end Changelog
